import Mathlib

/-!
Verification of the generation orchestration layer of the post-automation
repository: the multi-stage creative pipeline state machine (the reducer of
the CreativePipeline component, src/unnamed/part_002) and the batch
orchestrator of the guided wizard (src/client/src/pages/GuidedWizard.tsx).
Every definition is a direct shallow embedding of the corresponding source
function; line numbers in the doc comments refer to the source files.
-/

namespace CreativePipeline

/-- The four pipeline stages, in order (source `PipelineStep`, part_002 line 77). -/
inductive PipelineStep where
  | baseScene
  | composition
  | colorGrading
  | typography
deriving DecidableEq, BEq, Repr, Fintype

/-- The three configuration sub-steps (source `ConfigStep`, line 76). -/
inductive ConfigStep where
  | topic
  | product
  | settings
deriving DecidableEq, Repr, Fintype

/-- The session phase (source `Phase`, line 78): config maps to Configuring,
pipeline to Running, done to Finished. -/
inductive Phase where
  | config
  | pipeline
  | done
deriving DecidableEq, Repr, Fintype

/-- Outcome stored in a step result (source `StepResult.status`, line 85). -/
inductive ResultStatus where
  | done
  | skipped
deriving DecidableEq, Repr, Fintype

/-- A per-stage result (source `StepResult`, lines 83-86): an artifact handle
(possibly the empty string for skipped stages) and an outcome. -/
structure StepResult where
  imageUrl : String
  status : ResultStatus
deriving DecidableEq, Repr

/-- The map `stepResults : Partial Record PipelineStep StepResult` (line 106):
one optional slot per stage key, absent meaning not yet attempted. -/
structure StepResults where
  baseScene : Option StepResult
  composition : Option StepResult
  colorGrading : Option StepResult
  typography : Option StepResult
deriving DecidableEq, Repr

/-- Reading a slot of the results record. -/
def StepResults.get (r : StepResults) : PipelineStep → Option StepResult
  | .baseScene => r.baseScene
  | .composition => r.composition
  | .colorGrading => r.colorGrading
  | .typography => r.typography

/-- Writing (or, with none, deleting) a slot of the results record. -/
def StepResults.set (r : StepResults) : PipelineStep → Option StepResult → StepResults
  | .baseScene, v => { r with baseScene := v }
  | .composition, v => { r with composition := v }
  | .colorGrading, v => { r with colorGrading := v }
  | .typography, v => { r with typography := v }

/-- The ordered stage list (source `PIPELINE_STEPS`, line 146). -/
def PIPELINE_STEPS : List PipelineStep :=
  [.baseScene, .composition, .colorGrading, .typography]

/-- Index of a stage in `PIPELINE_STEPS` (the source computes it with
`PIPELINE_STEPS.indexOf`; see `stepIdx_eq_indexOf`). -/
def stepIdx : PipelineStep → Nat
  | .baseScene => 0
  | .composition => 1
  | .colorGrading => 2
  | .typography => 3

theorem stepIdx_eq_indexOf : ∀ st, stepIdx st = PIPELINE_STEPS.indexOf st := by
  decide

theorem stepIdx_injective : ∀ a b, stepIdx a = stepIdx b → a = b := by
  decide

/-- The stage `PIPELINE_STEPS[idx + 1]` for a non-final stage, and the stage
itself for the final one: the `nextStep` computed in the COMPLETE_STEP and
SKIP_STEP reducer cases (lines 223 and 236). -/
def nextStepOf : PipelineStep → PipelineStep
  | .baseScene => .composition
  | .composition => .colorGrading
  | .colorGrading => .typography
  | .typography => .typography

theorem nextStepOf_spec :
    ∀ st, (if stepIdx st < PIPELINE_STEPS.length - 1
           then PIPELINE_STEPS.get? (stepIdx st + 1)
           else some st) = some (nextStepOf st) := by
  decide

/-- The `isLast` test of the COMPLETE_STEP and SKIP_STEP cases (lines 224, 237). -/
def isLastStep (st : PipelineStep) : Bool :=
  stepIdx st == PIPELINE_STEPS.length - 1

/-- Configuration fields of the wizard state (source `State`, lines 88-129).
These fields are written only through the SET_CONFIG action and are read
neither by the reducer nor by the result scans, so their exact set does not
affect any property below; the per-stage settings strings are kept with their
source names. -/
structure Config where
  topic : String
  productImage : String
  preserveModel : Bool
  platform : String
  aspectRatio : String
  style : String
  tone : String
  goal : String
  compositionBackground : String
  compositionFraming : String
  compositionCameraAngle : String
  compositionDepthOfField : String
  colorTemperature : String
  colorContrast : String
  colorSaturation : String
  colorMood : String
  colorFilmStock : String
  typographyText : String
  typographyPosition : String
  typographyStyle : String
  typographyApproach : String
deriving DecidableEq, Repr

/-- The wizard state (source `State`, lines 88-129). -/
structure State where
  phase : Phase
  configStep : ConfigStep
  pipelineStep : PipelineStep
  config : Config
  caption : String
  baseScenePrompt : String
  stepResults : StepResults
  showCanvasEditor : Bool
deriving DecidableEq, Repr

/-- The reducer action set (source `Action`, lines 131-143). SET_CONFIG takes a
dynamic field name in the source; every dispatch site passes the name of one of
the `Config` fields, so it is embedded as an arbitrary update of `Config`. -/
inductive Action where
  | setConfig (u : Config → Config)
  | nextConfigStep
  | prevConfigStep
  | startPipeline (caption : String)
  | setPrompt (prompt : String)
  | completeStep (step : PipelineStep) (imageUrl : String)
  | skipStep (step : PipelineStep)
  | goToStep (step : PipelineStep)
  | finish
  | reset
  | setCanvasEditor (isOpen : Bool)
  | canvasSave (imageUrl : String)

/-- The initial state (source `INITIAL_STATE`, lines 148-177). -/
def INITIAL_STATE : State :=
  { phase := .config
    configStep := .topic
    pipelineStep := .baseScene
    config :=
      { topic := ""
        productImage := ""
        preserveModel := false
        platform := "instagram"
        aspectRatio := ""
        style := ""
        tone := ""
        goal := ""
        compositionBackground := ""
        compositionFraming := ""
        compositionCameraAngle := ""
        compositionDepthOfField := ""
        colorTemperature := ""
        colorContrast := ""
        colorSaturation := ""
        colorMood := ""
        colorFilmStock := ""
        typographyText := ""
        typographyPosition := "center"
        typographyStyle := "bold"
        typographyApproach := "none" }
    caption := ""
    baseScenePrompt := ""
    stepResults := ⟨none, none, none, none⟩
    showCanvasEditor := false }

/-- The invalidation algorithm (source `invalidateFromStep`, lines 179-186):
delete every result slot `PIPELINE_STEPS[i]` for `i` from the index of
`fromStep` to the end of the stage list. -/
def invalidateFromStep (results : StepResults) (fromStep : PipelineStep) : StepResults :=
  (PIPELINE_STEPS.drop (stepIdx fromStep)).foldl (fun r st => r.set st none) results

/-- The reducer (source `reducer`, lines 188-273), case for case. -/
def reducer (state : State) (action : Action) : State :=
  match action with
  | .setConfig u => { state with config := u state.config }
  | .nextConfigStep =>
    match state.configStep with
    | .topic => { state with configStep := .product }
    | .product => { state with configStep := .settings }
    | .settings => state
  | .prevConfigStep =>
    match state.configStep with
    | .topic => state
    | .product => { state with configStep := .topic }
    | .settings => { state with configStep := .product }
  | .startPipeline caption =>
    { state with phase := .pipeline, pipelineStep := .baseScene, caption := caption }
  | .setPrompt prompt => { state with baseScenePrompt := prompt }
  | .completeStep step imageUrl =>
    let newResults := state.stepResults.set step (some { imageUrl := imageUrl, status := .done })
    let isLast := isLastStep step
    { state with
        stepResults := newResults
        pipelineStep := if isLast then step else nextStepOf step
        phase := if isLast then .done else state.phase }
  | .skipStep step =>
    let newResults := state.stepResults.set step (some { imageUrl := "", status := .skipped })
    let isLast := isLastStep step
    { state with
        stepResults := newResults
        pipelineStep := if isLast then step else nextStepOf step
        phase := if isLast then .done else state.phase }
  | .goToStep step =>
    { state with
        pipelineStep := step
        stepResults := invalidateFromStep state.stepResults step
        phase := .pipeline }
  | .finish => { state with phase := .done }
  | .reset => INITIAL_STATE
  | .setCanvasEditor o => { state with showCanvasEditor := o }
  | .canvasSave imageUrl =>
    { state with
        stepResults := state.stepResults.set .typography
          (some { imageUrl := imageUrl, status := .done })
        showCanvasEditor := false
        phase := .done }

/-- Backward scan shared by the two image lookups: visit the given stages in
order and return the first stored artifact whose result has status done and a
non-empty imageUrl (the source condition
`result?.status === "done" && result.imageUrl`, lines 279 and 289). -/
def findDoneImage (results : StepResults) : List PipelineStep → Option String
  | [] => none
  | st :: rest =>
    match results.get st with
    | some r =>
      if r.status = .done ∧ r.imageUrl ≠ "" then some r.imageUrl
      else findDoneImage results rest
    | none => findDoneImage results rest

/-- Reference-artifact lookup (source `getPreviousStepImage`, lines 275-284):
scan backward from the stage before the active one. -/
def getPreviousStepImage (state : State) : Option String :=
  findDoneImage state.stepResults ((PIPELINE_STEPS.take (stepIdx state.pipelineStep)).reverse)

/-- Final-output lookup (source `getLatestImage`, lines 286-294): scan all
stages backward from the end. -/
def getLatestImage (state : State) : Option String :=
  findDoneImage state.stepResults PIPELINE_STEPS.reverse

/-- Indicator status of a step (source `pipelineStepStatuses`, lines 539-553). -/
inductive StepStatus where
  | pending
  | active
  | done
  | skipped
deriving DecidableEq, Repr

/-- Status derivation for the step indicator (lines 546-551): active when the
step is the live pipeline step during the pipeline phase, otherwise the stored
result status, otherwise pending. -/
def stepStatusOf (state : State) (step : PipelineStep) : StepStatus :=
  if step = state.pipelineStep ∧ state.phase = .pipeline then .active
  else
    match state.stepResults.get step with
    | some r =>
      match r.status with
      | .done => .done
      | .skipped => .skipped
    | none => .pending

/-- A session together with the stage generation currently in flight. The
component tracks an in-flight call with isGenerating (set true before each
await and false after it resolves), and each stage handler closes over the
stage that was active when it was invoked: that stage, not the stage active
at resolution time, is the one its COMPLETE_STEP names when the await
resolves. `generating` holds that remembered stage, none when idle. -/
structure AsyncState where
  ui : State
  generating : Option PipelineStep
deriving DecidableEq, Repr

/-- One transition of the CreativePipeline component, including user actions
taken while a generation is still in flight. Guards record what the rendered
component allows: the skip, redo and finish buttons and the stage generate
buttons are disabled while isGenerating (part_002 lines 969, 979, 994 and the
isGenerating flag passed to every stage controls component), and the config
Next button is disabled while the caption call runs (line 808), so skipStep,
finish, startGeneration and startPipeline require an idle component; the step
indicator is rendered with no isGenerating gating (line 843) and disables only
buttons whose status is pending (PipelineStepIndicator line 23), so goToStep
stays available during an in-flight generation; SET_CONFIG, SET_PROMPT and
SET_CANVAS_EDITOR come from controls that stay enabled; the canvas overlay
opens from the typography stage controls (line 958; its open button is not
disabled by isGenerating), so CANVAS_SAVE carries only the typography guard;
RESET is dispatched only by the done-phase button (line 1086) and does not
cancel an in-flight call. startGeneration requires the handler precondition
(the base stage, or a previous artifact found, lines 411, 437, 464) and
remembers the invocation-time active stage; resolveSuccess dispatches
COMPLETE_STEP for the remembered stage under the non-empty artifact guard
`result.success && result.imageUrl`; resolveFailure dispatches nothing. -/
inductive AsyncStep : AsyncState → AsyncState → Prop where
  | setConfig (a : AsyncState) (u : Config → Config) :
      AsyncStep a ⟨reducer a.ui (.setConfig u), a.generating⟩
  | setPrompt (a : AsyncState) (p : String) :
      AsyncStep a ⟨reducer a.ui (.setPrompt p), a.generating⟩
  | nextConfigStep (a : AsyncState) :
      AsyncStep a ⟨reducer a.ui .nextConfigStep, a.generating⟩
  | prevConfigStep (a : AsyncState) :
      AsyncStep a ⟨reducer a.ui .prevConfigStep, a.generating⟩
  | startPipeline (a : AsyncState) (caption : String) (hidle : a.generating = none)
      (hphase : a.ui.phase = .config) :
      AsyncStep a ⟨reducer a.ui (.startPipeline caption), none⟩
  | startGeneration (a : AsyncState) (hidle : a.generating = none)
      (hphase : a.ui.phase = .pipeline)
      (hprev : a.ui.pipelineStep = .baseScene ∨ getPreviousStepImage a.ui ≠ none) :
      AsyncStep a ⟨a.ui, some a.ui.pipelineStep⟩
  | resolveSuccess (a : AsyncState) (st : PipelineStep) (url : String)
      (hgen : a.generating = some st) (hurl : url ≠ "") :
      AsyncStep a ⟨reducer a.ui (.completeStep st url), none⟩
  | resolveFailure (a : AsyncState) (st : PipelineStep) (hgen : a.generating = some st) :
      AsyncStep a ⟨a.ui, none⟩
  | skipStep (a : AsyncState) (hidle : a.generating = none)
      (hphase : a.ui.phase = .pipeline) (hbase : a.ui.pipelineStep ≠ .baseScene) :
      AsyncStep a ⟨reducer a.ui (.skipStep a.ui.pipelineStep), none⟩
  | goToStep (a : AsyncState) (t : PipelineStep) (hphase : a.ui.phase = .pipeline)
      (hclick : stepStatusOf a.ui t ≠ .pending) :
      AsyncStep a ⟨reducer a.ui (.goToStep t), a.generating⟩
  | finish (a : AsyncState) (hidle : a.generating = none)
      (hphase : a.ui.phase = .pipeline) (hbase : a.ui.pipelineStep ≠ .baseScene) :
      AsyncStep a ⟨reducer a.ui .finish, none⟩
  | reset (a : AsyncState) (hphase : a.ui.phase = .done) :
      AsyncStep a ⟨reducer a.ui .reset, a.generating⟩
  | setCanvasEditor (a : AsyncState) (o : Bool) :
      AsyncStep a ⟨reducer a.ui (.setCanvasEditor o), a.generating⟩
  | canvasSave (a : AsyncState) (url : String)
      (hstep : a.ui.pipelineStep = .typography) :
      AsyncStep a ⟨reducer a.ui (.canvasSave url), a.generating⟩

/-- Program states reachable from the initial render. -/
inductive AsyncReachable : AsyncState → Prop where
  | init : AsyncReachable ⟨INITIAL_STATE, none⟩
  | step {a a' : AsyncState} : AsyncReachable a → AsyncStep a a' → AsyncReachable a'

theorem StepResults.get_set (r : StepResults) (st st' : PipelineStep) (v : Option StepResult) :
    (r.set st v).get st' = if st' = st then v else r.get st' := by
  cases st <;> cases st' <;> rfl

theorem invalidateFromStep_get (r : StepResults) (f st : PipelineStep) :
    (invalidateFromStep r f).get st =
      if stepIdx f ≤ stepIdx st then none else r.get st := by
  cases f <;> cases st <;> rfl

theorem stepIdx_lt_four : ∀ st, stepIdx st < 4 := by decide

theorem below_set (res : StepResults) (c : PipelineStep) (v : StepResult) (n : Nat)
    (h : ∀ st, (res.get st).isSome → stepIdx st < n) (hcn : stepIdx c < n) :
    ∀ st, ((res.set c (some v)).get st).isSome → stepIdx st < n := by
  intro st hst
  rw [StepResults.get_set] at hst
  by_cases he : st = c
  · exact he ▸ hcn
  · rw [if_neg he] at hst
    exact h st hst

theorem below_invalidate (res : StepResults) (t : PipelineStep) :
    ∀ st, ((invalidateFromStep res t).get st).isSome → stepIdx st < stepIdx t := by
  intro st h
  rw [invalidateFromStep_get] at h
  by_cases hle : stepIdx t ≤ stepIdx st
  · rw [if_pos hle] at h
    exact absurd h (by decide)
  · omega

/-- A step whose indicator button is enabled (status not pending) is either the
active step or a step holding a result. -/
theorem clickable_target (s : State) (t : PipelineStep)
    (hclick : stepStatusOf s t ≠ .pending) :
    t = s.pipelineStep ∨ (s.stepResults.get t).isSome := by
  unfold stepStatusOf at hclick
  by_cases hact : t = s.pipelineStep ∧ s.phase = .pipeline
  · exact Or.inl hact.1
  · rw [if_neg hact] at hclick
    right
    cases hres : s.stepResults.get t with
    | none => rw [hres] at hclick; exact absurd rfl hclick
    | some r => simp [hres]

/-- Inductive invariant of the program states: while configuring the result
map is empty; during the pipeline phase every stage holding a result lies
strictly below the active stage; and a generation for a non-final stage can be
in flight only during the pipeline phase with the active stage at or below the
remembered stage (while a call is in flight, the only navigation available is
GO_TO_STEP, which moves the active stage to an enabled target, never ahead of
the remembered stage). -/
def AsyncInv (a : AsyncState) : Prop :=
  (a.ui.phase = .config → ∀ st, a.ui.stepResults.get st = none) ∧
  (a.ui.phase = .pipeline →
    ∀ st, (a.ui.stepResults.get st).isSome → stepIdx st < stepIdx a.ui.pipelineStep) ∧
  (∀ st, a.generating = some st →
    st = .typography ∨
      (a.ui.phase = .pipeline ∧ stepIdx a.ui.pipelineStep ≤ stepIdx st))

theorem asyncInv_initial : AsyncInv ⟨INITIAL_STATE, none⟩ := by
  refine ⟨fun _ st => ?_, ?_, ?_⟩
  · cases st <;> rfl
  · intro hh
    exact absurd hh (by decide)
  · intro st hgen
    exact nomatch hgen

theorem asyncInv_step {a a' : AsyncState} (h : AsyncInv a) (hstep : AsyncStep a a') :
    AsyncInv a' := by
  obtain ⟨hc, hp, hg⟩ := h
  obtain ⟨ui, gen⟩ := a
  obtain ⟨ph, cs, ps, cf, cap, bp, res, sce⟩ := ui
  cases hstep with
  | setConfig u => exact ⟨hc, hp, hg⟩
  | setPrompt p => exact ⟨hc, hp, hg⟩
  | setCanvasEditor o => exact ⟨hc, hp, hg⟩
  | nextConfigStep => cases cs <;> exact ⟨hc, hp, hg⟩
  | prevConfigStep => cases cs <;> exact ⟨hc, hp, hg⟩
  | startPipeline caption hidle hphase =>
    have hph : ph = .config := hphase
    subst hph
    have hc' := hc rfl
    refine ⟨?_, ?_, ?_⟩
    · intro hh
      exact nomatch hh
    · intro _ st hsome
      have hsome' : (res.get st).isSome = true := hsome
      rw [hc' st] at hsome'
      exact absurd hsome' (by decide)
    · intro st hgen
      exact nomatch hgen
  | startGeneration hidle hphase hprev =>
    have hph : ph = .pipeline := hphase
    subst hph
    refine ⟨hc, hp, ?_⟩
    intro st hgen
    have hgen' : some ps = some st := hgen
    have he : ps = st := by injection hgen'
    exact Or.inr ⟨rfl, le_of_eq (congrArg stepIdx he)⟩
  | resolveSuccess st url hgen hurl =>
    have hgen' : gen = some st := hgen
    cases st with
    | typography =>
      refine ⟨?_, ?_, ?_⟩
      · intro hh
        exact nomatch hh
      · intro hh
        exact nomatch hh
      · intro s2 hg2
        exact nomatch hg2
    | baseScene =>
      rcases hg .baseScene hgen' with he | ⟨hph2, hle⟩
      · exact nomatch he
      · have hph : ph = .pipeline := hph2
        subst hph
        refine ⟨?_, ?_, ?_⟩
        · intro hh
          exact nomatch hh
        · intro _ st2 hsome
          have hsome' :
              ((res.set PipelineStep.baseScene (some ⟨url, .done⟩)).get st2).isSome = true :=
            hsome
          show stepIdx st2 < 1
          refine below_set res .baseScene ⟨url, .done⟩ 1 ?_ (by decide) st2 hsome'
          intro s3 h3
          have h4 : stepIdx s3 < stepIdx ps := hp rfl s3 h3
          have hle' : stepIdx ps ≤ 0 := hle
          omega
        · intro s2 hg2
          exact nomatch hg2
    | composition =>
      rcases hg .composition hgen' with he | ⟨hph2, hle⟩
      · exact nomatch he
      · have hph : ph = .pipeline := hph2
        subst hph
        refine ⟨?_, ?_, ?_⟩
        · intro hh
          exact nomatch hh
        · intro _ st2 hsome
          have hsome' :
              ((res.set PipelineStep.composition (some ⟨url, .done⟩)).get st2).isSome = true :=
            hsome
          show stepIdx st2 < 2
          refine below_set res .composition ⟨url, .done⟩ 2 ?_ (by decide) st2 hsome'
          intro s3 h3
          have h4 : stepIdx s3 < stepIdx ps := hp rfl s3 h3
          have hle' : stepIdx ps ≤ 1 := hle
          omega
        · intro s2 hg2
          exact nomatch hg2
    | colorGrading =>
      rcases hg .colorGrading hgen' with he | ⟨hph2, hle⟩
      · exact nomatch he
      · have hph : ph = .pipeline := hph2
        subst hph
        refine ⟨?_, ?_, ?_⟩
        · intro hh
          exact nomatch hh
        · intro _ st2 hsome
          have hsome' :
              ((res.set PipelineStep.colorGrading (some ⟨url, .done⟩)).get st2).isSome = true :=
            hsome
          show stepIdx st2 < 3
          refine below_set res .colorGrading ⟨url, .done⟩ 3 ?_ (by decide) st2 hsome'
          intro s3 h3
          have h4 : stepIdx s3 < stepIdx ps := hp rfl s3 h3
          have hle' : stepIdx ps ≤ 2 := hle
          omega
        · intro s2 hg2
          exact nomatch hg2
  | resolveFailure st hgen =>
    exact ⟨hc, hp, fun s2 hg2 => nomatch hg2⟩
  | skipStep hidle hphase hbase =>
    have hph : ph = .pipeline := hphase
    subst hph
    cases ps with
    | baseScene => exact absurd rfl hbase
    | composition =>
      refine ⟨?_, ?_, ?_⟩
      · intro hh
        exact nomatch hh
      · intro _ st2 hsome
        have hsome' :
            ((res.set PipelineStep.composition (some ⟨"", .skipped⟩)).get st2).isSome = true :=
          hsome
        show stepIdx st2 < 2
        refine below_set res .composition ⟨"", .skipped⟩ 2 ?_ (by decide) st2 hsome'
        intro s3 h3
        have h4 : stepIdx s3 < 1 := hp rfl s3 h3
        omega
      · intro s2 hg2
        exact nomatch hg2
    | colorGrading =>
      refine ⟨?_, ?_, ?_⟩
      · intro hh
        exact nomatch hh
      · intro _ st2 hsome
        have hsome' :
            ((res.set PipelineStep.colorGrading (some ⟨"", .skipped⟩)).get st2).isSome = true :=
          hsome
        show stepIdx st2 < 3
        refine below_set res .colorGrading ⟨"", .skipped⟩ 3 ?_ (by decide) st2 hsome'
        intro s3 h3
        have h4 : stepIdx s3 < 2 := hp rfl s3 h3
        omega
      · intro s2 hg2
        exact nomatch hg2
    | typography =>
      refine ⟨?_, ?_, ?_⟩
      · intro hh
        exact nomatch hh
      · intro hh
        exact nomatch hh
      · intro s2 hg2
        exact nomatch hg2
  | goToStep t hphase hclick =>
    have hph : ph = .pipeline := hphase
    subst hph
    refine ⟨?_, ?_, ?_⟩
    · intro hh
      exact nomatch hh
    · intro _ st2 hsome
      have hsome' : ((invalidateFromStep res t).get st2).isSome = true := hsome
      exact below_invalidate res t st2 hsome'
    · intro s2 hg2
      have hg2' : gen = some s2 := hg2
      rcases hg s2 hg2' with he | ⟨hph2, hle⟩
      · exact Or.inl he
      · refine Or.inr ⟨rfl, ?_⟩
        show stepIdx t ≤ stepIdx s2
        have hle2 : stepIdx ps ≤ stepIdx s2 := hle
        rcases clickable_target ⟨.pipeline, cs, ps, cf, cap, bp, res, sce⟩ t hclick with h1 | h2
        · have h1' : t = ps := h1
          rw [h1']
          exact hle2
        · have h3 : stepIdx t < stepIdx ps := hp rfl t h2
          omega
  | finish hidle hphase hbase =>
    refine ⟨?_, ?_, ?_⟩
    · intro hh
      exact nomatch hh
    · intro hh
      exact nomatch hh
    · intro s2 hg2
      exact nomatch hg2
  | reset hphase =>
    have hphd : ph = .done := hphase
    subst hphd
    refine ⟨?_, ?_, ?_⟩
    · intro _ st
      cases st <;> rfl
    · intro hh
      have hh' : Phase.config = Phase.pipeline := hh
      exact nomatch hh'
    · intro s2 hg2
      have hg2' : gen = some s2 := hg2
      rcases hg s2 hg2' with he | ⟨hph2, hle⟩
      · exact Or.inl he
      · exact nomatch hph2
  | canvasSave url hstep =>
    refine ⟨?_, ?_, ?_⟩
    · intro hh
      exact nomatch hh
    · intro hh
      exact nomatch hh
    · intro s2 hg2
      have hg2' : gen = some s2 := hg2
      rcases hg s2 hg2' with he | ⟨hph2, hle⟩
      · exact Or.inl he
      · have hps : ps = .typography := hstep
        rw [hps] at hle
        have hle' : 3 ≤ stepIdx s2 := hle
        have h4 := stepIdx_lt_four s2
        have he2 : stepIdx s2 = stepIdx PipelineStep.typography := by
          show stepIdx s2 = 3
          omega
        exact Or.inl (stepIdx_injective s2 .typography he2)

theorem asyncInv_reachable {a : AsyncState} (h : AsyncReachable a) : AsyncInv a := by
  induction h with
  | init => exact asyncInv_initial
  | step _ hstep ih => exact asyncInv_step ih hstep

/-- C1 (Invalidation completeness): for every session and every target stage j,
when results are present at all stages up to some stage k and j is at or before
k, the GO_TO_STEP action removes every StepResult at stage index at least the
index of j, sets the active stage to j, and sets the phase to Running
(pipeline), even if it had been Finished. -/
theorem goToStep_invalidation_complete (s : State) (j k : PipelineStep)
    (hresults : ∀ st, stepIdx st ≤ stepIdx k → (s.stepResults.get st).isSome)
    (hjk : stepIdx j ≤ stepIdx k) :
    (∀ st, stepIdx j ≤ stepIdx st → (reducer s (.goToStep j)).stepResults.get st = none) ∧
    (reducer s (.goToStep j)).pipelineStep = j ∧
    (reducer s (.goToStep j)).phase = .pipeline := by
  refine ⟨fun st hst => ?_, rfl, rfl⟩
  show (invalidateFromStep s.stepResults j).get st = none
  rw [invalidateFromStep_get, if_pos hst]

/-- Concrete session for the C1 witness: a finished session whose first three
stages hold Done results. -/
def c1State : State :=
  { INITIAL_STATE with
      phase := .done
      pipelineStep := .typography
      stepResults := ⟨some ⟨"A1", .done⟩, some ⟨"A2", .done⟩, some ⟨"A3", .done⟩, none⟩ }

theorem goToStep_invalidation_complete_witness :
    (∀ st, stepIdx st ≤ stepIdx PipelineStep.colorGrading →
      (c1State.stepResults.get st).isSome) ∧
    stepIdx PipelineStep.composition ≤ stepIdx PipelineStep.colorGrading ∧
    ((∀ st, stepIdx PipelineStep.composition ≤ stepIdx st →
        (reducer c1State (.goToStep .composition)).stepResults.get st = none) ∧
      (reducer c1State (.goToStep .composition)).pipelineStep = .composition ∧
      (reducer c1State (.goToStep .composition)).phase = .pipeline) :=
  ⟨by decide, by decide,
    goToStep_invalidation_complete c1State .composition .colorGrading (by decide) (by decide)⟩

/-- Concrete mid-pipeline session (first two stages completed with A1 and A2)
used by several witnesses. -/
def c2State : State :=
  reducer (reducer (reducer INITIAL_STATE (.startPipeline "legenda"))
    (.completeStep .baseScene "A1")) (.completeStep .composition "A2")

/-- Program trace shared by the witnesses below: start the pipeline, start the
base scene generation, and let the call resolve with artifact A1; the session
then has baseScene Done and the composition stage active, with no call in
flight. -/
def asyncMidState : AsyncState :=
  ⟨reducer (reducer INITIAL_STATE (.startPipeline "legenda"))
    (.completeStep .baseScene "A1"), none⟩

theorem asyncMidState_reachable : AsyncReachable asyncMidState := by
  have h1 : AsyncReachable ⟨INITIAL_STATE, none⟩ := AsyncReachable.init
  have h2 : AsyncReachable ⟨reducer INITIAL_STATE (.startPipeline "legenda"), none⟩ :=
    h1.step (AsyncStep.startPipeline _ "legenda" rfl rfl)
  have h3 : AsyncReachable ⟨reducer INITIAL_STATE (.startPipeline "legenda"),
      some PipelineStep.baseScene⟩ :=
    h2.step (AsyncStep.startGeneration _ rfl rfl (Or.inl rfl))
  exact h3.step (AsyncStep.resolveSuccess _ .baseScene "A1" rfl (by decide))

/-- The C2 race state: from asyncMidState, start the composition generation,
navigate back to baseScene through the still-enabled step indicator while the
call is in flight (GO_TO_STEP empties the result map), and let the stale
COMPLETE_STEP composition land when the call resolves. -/
def raceState : AsyncState :=
  ⟨reducer (reducer (reducer (reducer INITIAL_STATE (.startPipeline "legenda"))
      (.completeStep .baseScene "A1")) (.goToStep .baseScene))
    (.completeStep .composition "A2"), none⟩

/-- C2 (evaluation of the code at the failing input): the program reaches a
pipeline session in which composition holds a Done result while baseScene
holds no result at all — the gap the claim rules out. A stage handler closes
over the stage active at its invocation, the step indicator is not disabled
while the call runs, so the user can backtrack to baseScene mid-flight, and
the resolved handler then dispatches COMPLETE_STEP composition on the emptied
session, also moving the active stage forward to colorGrading. -/
theorem async_race_reaches_gap :
    AsyncReachable raceState ∧
    raceState.ui.phase = .pipeline ∧
    raceState.ui.stepResults.get .composition = some ⟨"A2", .done⟩ ∧
    raceState.ui.stepResults.get .baseScene = none ∧
    raceState.ui.pipelineStep = .colorGrading := by
  refine ⟨?_, rfl, rfl, rfl, rfl⟩
  have h5 : AsyncReachable ⟨asyncMidState.ui, some PipelineStep.composition⟩ :=
    asyncMidState_reachable.step (AsyncStep.startGeneration _ rfl rfl (Or.inr (by decide)))
  have h6 : AsyncReachable ⟨reducer asyncMidState.ui (.goToStep .baseScene),
      some PipelineStep.composition⟩ :=
    h5.step (AsyncStep.goToStep _ .baseScene rfl (by decide))
  exact h6.step (AsyncStep.resolveSuccess _ .composition "A2" rfl (by decide))

/-- Session at the start of the pipeline phase (active stage baseScene). -/
def freshPipelineState : State := reducer INITIAL_STATE (.startPipeline "legenda")

/-- C6 counterexample: dispatching GO_TO_STEP with a target ahead of the active
stage is not rejected and does not leave the session unchanged: from the fresh
pipeline state (active stage baseScene), GO_TO_STEP composition changes the
session (it moves the active stage forward). -/
theorem goToStep_forward_not_rejected :
    stepIdx freshPipelineState.pipelineStep < stepIdx PipelineStep.composition ∧
    reducer freshPipelineState (.goToStep .composition) ≠ freshPipelineState := by
  exact ⟨by decide, by decide⟩

/-- C6 amended: the reducer applies GO_TO_STEP unconditionally (see the
counterexample); forward targets are unreachable not through rejection but
through the step indicator, which enables only the active step and steps
holding results: in every program-reachable pipeline-phase session — including
sessions reached by navigating while a generation is still in flight and
letting its stale COMPLETE_STEP land afterwards — every stage holding a result
lies strictly below the active stage, so an enabled target is never ahead of
the active stage and only backward or same-stage navigation reaches the
invalidation path. -/
theorem goToStep_enabled_target_not_ahead (a : AsyncState) (t : PipelineStep)
    (ha : AsyncReachable a) (hphase : a.ui.phase = .pipeline)
    (hclick : stepStatusOf a.ui t ≠ .pending) :
    stepIdx t ≤ stepIdx a.ui.pipelineStep := by
  obtain ⟨hc, hp, hg⟩ := asyncInv_reachable ha
  rcases clickable_target a.ui t hclick with h1 | h2
  · exact le_of_eq (congrArg stepIdx h1)
  · exact le_of_lt (hp hphase t h2)

theorem goToStep_enabled_target_not_ahead_witness :
    asyncMidState.ui.phase = .pipeline ∧
    stepStatusOf asyncMidState.ui .baseScene ≠ .pending ∧
    stepIdx PipelineStep.baseScene ≤ stepIdx asyncMidState.ui.pipelineStep :=
  ⟨rfl, by decide,
    goToStep_enabled_target_not_ahead asyncMidState .baseScene asyncMidState_reachable rfl
      (by decide)⟩

/-- C7 counterexample: dispatching SKIP_STEP for the first stage is not
rejected: from the fresh pipeline state it records a Skipped result at
baseScene and changes the session. -/
theorem skip_first_stage_not_rejected :
    (reducer freshPipelineState (.skipStep .baseScene)).stepResults.get .baseScene =
      some ⟨"", .skipped⟩ ∧
    reducer freshPipelineState (.skipStep .baseScene) ≠ freshPipelineState := by
  exact ⟨by decide, by decide⟩

/-- Rendering condition of the skip button (part_002 lines 839 and 964):
pipeline phase, active stage other than baseScene. -/
def skipButtonRendered (s : State) : Prop :=
  s.phase = .pipeline ∧ s.pipelineStep ≠ .baseScene

/-- C7 amended: skip records StepResult(empty artifact, Skipped) at the active
stage and advances exactly as a successful run would (same next active stage
and same phase as COMPLETE_STEP with any artifact), performing no Generator
call, and it is offered by the component only for stages other than the first:
the skip button is rendered only when the active stage is not baseScene; the
reducer itself applies SKIP_STEP for any stage rather than rejecting the first
stage with an InvalidTransition. -/
theorem skip_records_and_advances (s : State) (url : String) (h : skipButtonRendered s) :
    s.pipelineStep ≠ .baseScene ∧
    (reducer s (.skipStep s.pipelineStep)).stepResults.get s.pipelineStep =
      some ⟨"", .skipped⟩ ∧
    (reducer s (.skipStep s.pipelineStep)).pipelineStep =
      (reducer s (.completeStep s.pipelineStep url)).pipelineStep ∧
    (reducer s (.skipStep s.pipelineStep)).phase =
      (reducer s (.completeStep s.pipelineStep url)).phase := by
  refine ⟨h.2, ?_, rfl, rfl⟩
  show (s.stepResults.set s.pipelineStep (some ⟨"", .skipped⟩)).get s.pipelineStep = _
  rw [StepResults.get_set, if_pos rfl]

/-- Spec-level backward scan, written from the specification sentence for
comparison with the source scan: the artifact of the nearest prior stage whose
result has outcome Done, skipping over Skipped stages, with no condition on
the artifact handle. -/
def specNearestDone (results : StepResults) : List PipelineStep → Option String
  | [] => none
  | st :: rest =>
    match results.get st with
    | some r => if r.status = .done then some r.imageUrl else specNearestDone results rest
    | none => specNearestDone results rest

/-- Spec-level reference-artifact lookup for the active stage. -/
def specPriorDoneArtifact (s : State) : Option String :=
  specNearestDone s.stepResults ((PIPELINE_STEPS.take (stepIdx s.pipelineStep)).reverse)

theorem findDoneImage_cons_none (results : StepResults) (st : PipelineStep)
    (rest : List PipelineStep) (h : results.get st = none) :
    findDoneImage results (st :: rest) = findDoneImage results rest := by
  simp only [findDoneImage, h]

theorem findDoneImage_cons_some (results : StepResults) (st : PipelineStep)
    (rest : List PipelineStep) (r : StepResult) (h : results.get st = some r) :
    findDoneImage results (st :: rest) =
      if r.status = .done ∧ r.imageUrl ≠ "" then some r.imageUrl
      else findDoneImage results rest := by
  simp only [findDoneImage, h]

theorem specNearestDone_cons_none (results : StepResults) (st : PipelineStep)
    (rest : List PipelineStep) (h : results.get st = none) :
    specNearestDone results (st :: rest) = specNearestDone results rest := by
  simp only [specNearestDone, h]

theorem specNearestDone_cons_some (results : StepResults) (st : PipelineStep)
    (rest : List PipelineStep) (r : StepResult) (h : results.get st = some r) :
    specNearestDone results (st :: rest) =
      if r.status = .done then some r.imageUrl else specNearestDone results rest := by
  simp only [specNearestDone, h]

theorem findDoneImage_eq_specNearestDone (results : StepResults)
    (hne : ∀ st r, results.get st = some r → r.status = .done → r.imageUrl ≠ "") :
    ∀ l, findDoneImage results l = specNearestDone results l := by
  intro l
  induction l with
  | nil => rfl
  | cons st rest ih =>
    cases hres : results.get st with
    | none =>
      rw [findDoneImage_cons_none results st rest hres,
        specNearestDone_cons_none results st rest hres]
      exact ih
    | some r =>
      rw [findDoneImage_cons_some results st rest r hres,
        specNearestDone_cons_some results st rest r hres]
      by_cases hd : r.status = .done
      · have hu : r.imageUrl ≠ "" := hne st r hres hd
        rw [if_pos ⟨hd, hu⟩, if_pos hd]
      · rw [if_neg (fun hh => hd hh.1), if_neg hd]
        exact ih

/-- C3 (Backward-artifact lookup correctness): when every Done result carries a
non-empty artifact handle (as every Generator-produced result does, since
COMPLETE_STEP is guarded by a non-empty imageUrl), the reference artifact for
the active stage is the artifact of the nearest prior stage whose result is
Done, scanning backward from the stage before the active one and transparently
skipping Skipped stages; in particular the lookup yields no artifact exactly
when no prior Done result exists. -/
theorem getPreviousStepImage_nearest_done (s : State)
    (hne : ∀ st r, s.stepResults.get st = some r → r.status = .done → r.imageUrl ≠ "") :
    getPreviousStepImage s = specPriorDoneArtifact s :=
  findDoneImage_eq_specNearestDone s.stepResults hne _

/-- Session for the C3 witness: the stages before the active one are Done(A),
Skipped, Done(B); the lookup yields B, not A and not empty. -/
def c3State : State :=
  { INITIAL_STATE with
      phase := .pipeline
      pipelineStep := .typography
      stepResults := ⟨some ⟨"A", .done⟩, some ⟨"", .skipped⟩, some ⟨"B", .done⟩, none⟩ }

theorem getPreviousStepImage_nearest_done_witness :
    (∀ st r, c3State.stepResults.get st = some r → r.status = .done → r.imageUrl ≠ "") ∧
    getPreviousStepImage c3State = specPriorDoneArtifact c3State ∧
    getPreviousStepImage c3State = some "B" :=
  ⟨by decide, getPreviousStepImage_nearest_done c3State (by decide), by decide⟩

theorem findDoneImage_mem (results : StepResults) :
    ∀ l u, findDoneImage results l = some u →
      u ≠ "" ∧ ∃ st, st ∈ l ∧ results.get st = some ⟨u, .done⟩ := by
  intro l
  induction l with
  | nil =>
    intro u h
    exact absurd h (by simp [findDoneImage])
  | cons st rest ih =>
    intro u h
    cases hres : results.get st with
    | none =>
      rw [findDoneImage_cons_none results st rest hres] at h
      obtain ⟨hu, st', hmem, heq⟩ := ih u h
      exact ⟨hu, st', List.mem_cons_of_mem _ hmem, heq⟩
    | some r =>
      rw [findDoneImage_cons_some results st rest r hres] at h
      by_cases hc : r.status = .done ∧ r.imageUrl ≠ ""
      · rw [if_pos hc] at h
        have hu : r.imageUrl = u := by injection h
        refine ⟨hu ▸ hc.2, st, List.mem_cons_self st rest, ?_⟩
        rw [hres]
        have hr : r = ⟨u, .done⟩ := by
          cases r with
          | mk i st2 => cases hu; cases hc.1; rfl
        rw [hr]
      · rw [if_neg hc] at h
        obtain ⟨hu, st', hmem, heq⟩ := ih u h
        exact ⟨hu, st', List.mem_cons_of_mem _ hmem, heq⟩

theorem mem_scan_iff :
    ∀ ps st : PipelineStep,
      st ∈ (PIPELINE_STEPS.take (stepIdx ps)).reverse ↔ stepIdx st < stepIdx ps := by
  intro ps st
  cases ps <;> cases st <;> simp [PIPELINE_STEPS, stepIdx]

theorem findDoneImage_bridge (results : StepResults) (st0 : PipelineStep)
    (h0 : results.get st0 = some ⟨"", .done⟩) :
    ∀ l, findDoneImage (results.set st0 (some ⟨"", .skipped⟩)) l = findDoneImage results l := by
  intro l
  induction l with
  | nil => rfl
  | cons st rest ih =>
    by_cases hst : st = st0
    · subst hst
      rw [findDoneImage_cons_some (results.set st (some ⟨"", .skipped⟩)) st rest
          ⟨"", .skipped⟩ (by rw [StepResults.get_set, if_pos rfl]),
        findDoneImage_cons_some results st rest ⟨"", .done⟩ h0,
        if_neg (by simp), if_neg (by simp)]
      exact ih
    · have hget : (results.set st0 (some ⟨"", .skipped⟩)).get st = results.get st := by
        rw [StepResults.get_set, if_neg hst]
      cases hres : results.get st with
      | none =>
        rw [findDoneImage_cons_none (results.set st0 (some ⟨"", .skipped⟩)) st rest
            (by rw [hget, hres]),
          findDoneImage_cons_none results st rest hres]
        exact ih
      | some r =>
        rw [findDoneImage_cons_some (results.set st0 (some ⟨"", .skipped⟩)) st rest r
            (by rw [hget, hres]),
          findDoneImage_cons_some results st rest r hres, ih]

/-- C10 (implicit behavior of the scans): both backward scans return an
artifact handle only from a result whose status is done and whose imageUrl is
non-empty; a result recorded as Done with an empty artifact handle is bridged
over exactly like a Skipped stage (replacing it by a Skipped result changes
neither scan); when no qualifying result exists the scans return none, never
an empty handle. -/
theorem image_scans_nonempty_done (s : State) (st0 : PipelineStep) :
    (∀ u, getPreviousStepImage s = some u →
      u ≠ "" ∧ ∃ st, stepIdx st < stepIdx s.pipelineStep ∧
        s.stepResults.get st = some ⟨u, .done⟩) ∧
    (∀ u, getLatestImage s = some u →
      u ≠ "" ∧ ∃ st, s.stepResults.get st = some ⟨u, .done⟩) ∧
    (s.stepResults.get st0 = some ⟨"", .done⟩ →
      getPreviousStepImage
          { s with stepResults := s.stepResults.set st0 (some ⟨"", .skipped⟩) } =
        getPreviousStepImage s ∧
      getLatestImage { s with stepResults := s.stepResults.set st0 (some ⟨"", .skipped⟩) } =
        getLatestImage s) := by
  refine ⟨?_, ?_, ?_⟩
  · intro u h
    obtain ⟨hu, st, hmem, heq⟩ := findDoneImage_mem s.stepResults _ u h
    exact ⟨hu, st, (mem_scan_iff s.pipelineStep st).mp hmem, heq⟩
  · intro u h
    obtain ⟨hu, st, hmem, heq⟩ := findDoneImage_mem s.stepResults _ u h
    exact ⟨hu, st, heq⟩
  · intro h0
    exact ⟨findDoneImage_bridge s.stepResults st0 h0 _, findDoneImage_bridge s.stepResults st0 h0 _⟩

/-- Session for the C10 witness: baseScene Done with artifact A, composition
recorded Done with an empty handle; the scans bridge over the empty-handled
result exactly as over a Skipped one. -/
def c10State : State :=
  { INITIAL_STATE with
      phase := .pipeline
      pipelineStep := .typography
      stepResults := ⟨some ⟨"A", .done⟩, some ⟨"", .done⟩, none, none⟩ }

theorem image_scans_nonempty_done_witness :
    c10State.stepResults.get .composition = some ⟨"", .done⟩ ∧
    getPreviousStepImage
        { c10State with stepResults :=
            c10State.stepResults.set .composition (some ⟨"", .skipped⟩) } =
      getPreviousStepImage c10State ∧
    getPreviousStepImage c10State = some "A" :=
  ⟨by decide, ((image_scans_nonempty_done c10State .composition).2.2 (by decide)).1, by decide⟩

/-- Result of the generateBaseScene mutation as read by its handler (part_002
lines 384-398): the promise either resolves with a success flag, an imageUrl
and a prompt (the empty string standing for an absent field), or rejects (the
catch branch). -/
inductive BaseSceneOutcome where
  | resolved (success : Bool) (imageUrl : String) (prompt : String)
  | thrown
deriving DecidableEq, Repr

/-- Truth of the handler guard `result.success && result.imageUrl` for the base
scene call; false when the promise rejected. -/
def baseSceneOutcomeOk : BaseSceneOutcome → Bool
  | .resolved success imageUrl _ => success && !(imageUrl == "")
  | .thrown => false

/-- Actions dispatched by handleGenerateBaseScene (lines 381-407) as a function
of the mutation outcome: on success it dispatches COMPLETE_STEP for baseScene,
then SET_PROMPT when a prompt was returned; on an unsuccessful result or an
exception it only shows a toast and dispatches nothing. -/
def handleGenerateBaseSceneActions : BaseSceneOutcome → List Action
  | .resolved success imageUrl prompt =>
    if success && !(imageUrl == "") then
      .completeStep .baseScene imageUrl ::
        (if prompt == "" then [] else [.setPrompt prompt])
    else []
  | .thrown => []

/-- Result of the refineComposition mutation as read by its handler. -/
inductive RefineOutcome where
  | resolved (success : Bool) (imageUrl : String)
  | thrown
deriving DecidableEq, Repr

/-- Truth of the handler guard for the composition call. -/
def refineOutcomeOk : RefineOutcome → Bool
  | .resolved success imageUrl => success && !(imageUrl == "")
  | .thrown => false

/-- Actions dispatched by handleRefineComposition (lines 409-433): the handler
first resolves the previous-stage artifact with the pipeline step forced to
composition and returns before any Generator call when there is none; on a
successful result it dispatches COMPLETE_STEP for composition; otherwise it
dispatches nothing. -/
def handleRefineCompositionActions (s : State) (o : RefineOutcome) : List Action :=
  match getPreviousStepImage { s with pipelineStep := .composition } with
  | none => []
  | some _ =>
    match o with
    | .resolved success imageUrl =>
      if success && !(imageUrl == "") then [.completeStep .composition imageUrl] else []
    | .thrown => []

/-- Sequential application of the dispatched actions to the session. -/
def applyActions (s : State) (acts : List Action) : State :=
  acts.foldl reducer s

/-- C9 (Stage-failure atomicity): when the Generator call made by a stage
handler fails, for an unsuccessful result or a thrown exception alike, the
handler dispatches no action, so the session is unchanged: no StepResult is
recorded and the active stage and phase stay the same; only a transient toast
is surfaced. The Done result is recorded and the stage advanced only on a
successful outcome. -/
theorem stage_failure_atomic (s : State) (o : BaseSceneOutcome) (o2 : RefineOutcome)
    (ho : baseSceneOutcomeOk o = false) (ho2 : refineOutcomeOk o2 = false) :
    applyActions s (handleGenerateBaseSceneActions o) = s ∧
    applyActions s (handleRefineCompositionActions s o2) = s := by
  constructor
  · have he : handleGenerateBaseSceneActions o = [] := by
      cases o with
      | resolved success imageUrl prompt =>
        simp only [baseSceneOutcomeOk] at ho
        simp [handleGenerateBaseSceneActions, ho]
      | thrown => rfl
    rw [he]
    rfl
  · have he : handleRefineCompositionActions s o2 = [] := by
      unfold handleRefineCompositionActions
      cases hprev : getPreviousStepImage { s with pipelineStep := .composition } with
      | none => rfl
      | some u =>
        cases o2 with
        | resolved success imageUrl =>
          simp only [refineOutcomeOk] at ho2
          simp [ho2]
        | thrown => rfl
    rw [he]
    rfl

theorem stage_failure_atomic_witness :
    baseSceneOutcomeOk (.resolved true "" "p") = false ∧
    refineOutcomeOk .thrown = false ∧
    (applyActions c2State (handleGenerateBaseSceneActions (.resolved true "" "p")) = c2State ∧
      applyActions c2State (handleRefineCompositionActions c2State .thrown) = c2State) :=
  ⟨rfl, rfl, stage_failure_atomic c2State (.resolved true "" "p") .thrown rfl rfl⟩

theorem skip_records_and_advances_witness :
    skipButtonRendered c2State ∧
    (c2State.pipelineStep ≠ .baseScene ∧
      (reducer c2State (.skipStep c2State.pipelineStep)).stepResults.get c2State.pipelineStep =
        some ⟨"", .skipped⟩ ∧
      (reducer c2State (.skipStep c2State.pipelineStep)).pipelineStep =
        (reducer c2State (.completeStep c2State.pipelineStep "A3")).pipelineStep ∧
      (reducer c2State (.skipStep c2State.pipelineStep)).phase =
        (reducer c2State (.completeStep c2State.pipelineStep "A3")).phase) :=
  ⟨⟨rfl, by decide⟩, skip_records_and_advances c2State "A3" ⟨rfl, by decide⟩⟩

end CreativePipeline

namespace GuidedWizard

/-- Status of a batch item (source `BatchResultItem.status`, GuidedWizard.tsx
line 691). -/
inductive BatchStatus where
  | pending
  | generating
  | done
  | error
deriving DecidableEq, Repr

/-- One batch job (source `BatchResultItem`, lines 686-693). -/
structure BatchResultItem where
  index : Nat
  caption : String
  imagePrompt : String
  imageUrl : Option String
  status : BatchStatus
  error : Option String
deriving DecidableEq, Repr

/-- One caption and prompt pair returned by the batch caption call
(`batchData.items`, lines 975-990). -/
structure BatchItemInput where
  index : Nat
  caption : String
  imagePrompt : String
deriving DecidableEq, Repr

/-- Outcome of one generateImage mutation call: the promise either resolves
with a success flag and an imageUrl (the empty string standing for an absent
field), or rejects with an error message (the catch branch; the message is
"Erro desconhecido" when the thrown value is not an Error). -/
inductive GenOutcome where
  | resolved (success : Bool) (imageUrl : String)
  | thrown (message : String)
deriving DecidableEq, Repr

/-- Truth of the guard `imageResult.success && imageResult.imageUrl`
(lines 1033, 1093); false when the promise rejected. -/
def genOutcomeOk : GenOutcome → Bool
  | .resolved success imageUrl => success && !(imageUrl == "")
  | .thrown _ => false

/-- The functional state update
`prev.map((item, idx) => idx === i ? f(item) : item)` used by every job status
write (lines 1011, 1034, 1038, 1043, 1071, 1094, 1099, 1104). -/
def setItem (items : List BatchResultItem) (i : Nat)
    (f : BatchResultItem -> BatchResultItem) : List BatchResultItem :=
  items.mapIdx (fun idx item => if idx = i then f item else item)

/-- `initialResults` (lines 993-999): one pending job per returned item. -/
def initBatchResults (inputs : List BatchItemInput) : List BatchResultItem :=
  inputs.map (fun it =>
    { index := it.index, caption := it.caption, imagePrompt := it.imagePrompt,
      imageUrl := none, status := .pending, error := none })

/-- Terminal update applied to job `i` by one loop iteration, given the
Generator outcome (lines 1033-1046): done with the artifact on success, error
with "Falha ao gerar imagem" on an unsuccessful result, error with the thrown
message on an exception. -/
def jobOutcomeUpdate (o : GenOutcome) (item : BatchResultItem) : BatchResultItem :=
  match o with
  | .resolved success imageUrl =>
    if success && !(imageUrl == "") then
      { item with status := .done, imageUrl := some imageUrl }
    else
      { item with status := .error, error := some "Falha ao gerar imagem" }
  | .thrown message => { item with status := .error, error := some message }

/-- The for-loop of generateBatch (lines 1002-1052), iterating the loop
variable `i` over the item indices with `fuel` remaining iterations
(`items.length - i` at entry). `batchCancelled` is the value of the state
variable captured by the closure of generateBatch when the component rendered
it: both cancellation checks of the loop (lines 1004 and 1049) read this
captured value, which never changes during the run. `cancelCell` threads the
live value of the batchCancelled state cell, which handleCancelBatch
(lines 1062-1065) may set during the inter-job delay (`cancelDuringDelayAfter i`
says whether a cancel request lands after job `i`); the loop writes the cell
through setBatchCancelled at launch but never reads it afterwards. The
setCurrentBatchIndex write and the inter-job delay touch no job state and are
not modelled further. -/
def generateBatchLoop (gen : Nat -> GenOutcome) (batchCancelled : Bool)
    (cancelDuringDelayAfter : Nat -> Bool) :
    Nat -> Nat -> Bool -> List BatchResultItem -> Bool × List BatchResultItem
  | 0, _, cancelCell, items => (cancelCell, items)
  | fuel + 1, i, cancelCell, items =>
    if batchCancelled then (cancelCell, items)
    else
      let afterGenerating := setItem items i (fun it => { it with status := .generating })
      let afterResult := setItem afterGenerating i (jobOutcomeUpdate (gen i))
      let cancelCell2 := cancelCell || cancelDuringDelayAfter i
      generateBatchLoop gen batchCancelled cancelDuringDelayAfter fuel (i + 1)
        cancelCell2 afterResult

/-- generateBatch (lines 968-1060) after the caption call succeeded: initialize
pending jobs and run the loop from index 0. `batchCancelled` is the captured
value described above; the returned pair is the final value of the
batchCancelled state cell and the final job list. -/
def generateBatchRun (gen : Nat -> GenOutcome) (batchCancelled : Bool)
    (cancelDuringDelayAfter : Nat -> Bool) (inputs : List BatchItemInput) :
    Bool × List BatchResultItem :=
  generateBatchLoop gen batchCancelled cancelDuringDelayAfter
    inputs.length 0 batchCancelled (initBatchResults inputs)

theorem setItem_getElem? (items : List BatchResultItem) (i : Nat)
    (f : BatchResultItem -> BatchResultItem) (j : Nat) :
    (setItem items i f)[j]? = if j = i then (items[j]?).map f else items[j]? := by
  by_cases h : j = i <;> simp [setItem, h]

theorem generateBatchLoop_getElem? (gen : Nat -> GenOutcome)
    (cancelAfter : Nat -> Bool) :
    ∀ (fuel i : Nat) (cell : Bool) (items : List BatchResultItem) (j : Nat),
      ((generateBatchLoop gen false cancelAfter fuel i cell items).2)[j]? =
        if i ≤ j ∧ j < i + fuel then
          (items[j]?).map
            (fun it => jobOutcomeUpdate (gen j) { it with status := .generating })
        else items[j]? := by
  intro fuel
  induction fuel with
  | zero =>
    intro i cell items j
    rw [if_neg (by omega)]
    rfl
  | succ fuel ih =>
    intro i cell items j
    rw [show generateBatchLoop gen false cancelAfter (fuel + 1) i cell items =
        generateBatchLoop gen false cancelAfter fuel (i + 1) (cell || cancelAfter i)
          (setItem (setItem items i (fun it => { it with status := .generating })) i
            (jobOutcomeUpdate (gen i))) from rfl]
    rw [ih]
    have h2 : (setItem (setItem items i (fun it => { it with status := .generating })) i
        (jobOutcomeUpdate (gen i)))[j]? =
        if j = i then
          (items[j]?).map
            (fun it => jobOutcomeUpdate (gen i) { it with status := .generating })
        else items[j]? := by
      rw [setItem_getElem?, setItem_getElem?]
      by_cases hj : j = i
      · rw [if_pos hj, if_pos hj, if_pos hj, Option.map_map]
        rfl
      · rw [if_neg hj, if_neg hj, if_neg hj]
    rw [h2]
    by_cases hij : j = i
    · subst hij
      rw [if_neg (by omega), if_pos rfl, if_pos (by omega)]
    · rw [if_neg hij]
      by_cases hc : i + 1 ≤ j ∧ j < i + 1 + fuel
      · rw [if_pos hc, if_pos (by omega)]
      · rw [if_neg hc, if_neg (by omega)]

theorem jobOutcomeUpdate_status (o : GenOutcome) (it : BatchResultItem) :
    (jobOutcomeUpdate o it).status =
      if genOutcomeOk o = true then BatchStatus.done else BatchStatus.error := by
  cases o with
  | resolved success imageUrl =>
    by_cases h : (success && !(imageUrl == "")) = true <;>
      simp [jobOutcomeUpdate, genOutcomeOk, h]
  | thrown m => rfl

theorem jobOutcomeUpdate_caption (o : GenOutcome) (it : BatchResultItem) :
    (jobOutcomeUpdate o it).caption = it.caption := by
  cases o with
  | resolved success imageUrl =>
    by_cases h : (success && !(imageUrl == "")) = true <;>
      simp [jobOutcomeUpdate, h]
  | thrown m => rfl

/-- Pointwise characterization of a fresh (captured flag false) batch run: the
final job at each index is the terminal update of its own pending job under the
Generator outcome for that index, for every cancellation schedule. -/
theorem generateBatchRun_getElem? (inputs : List BatchItemInput)
    (gen : Nat -> GenOutcome) (cancelAfter : Nat -> Bool) (j : Nat) :
    ((generateBatchRun gen false cancelAfter inputs).2)[j]? =
      (inputs[j]?).map (fun inp => jobOutcomeUpdate (gen j)
        { index := inp.index, caption := inp.caption, imagePrompt := inp.imagePrompt,
          imageUrl := none, status := .generating, error := none }) := by
  show ((generateBatchLoop gen false cancelAfter
      inputs.length 0 false (initBatchResults inputs)).2)[j]? = _
  rw [generateBatchLoop_getElem?]
  by_cases hj : j < inputs.length
  · rw [if_pos (by omega)]
    show ((inputs.map _)[j]?).map _ = _
    rw [List.getElem?_map, Option.map_map]
    rfl
  · rw [if_neg (by omega)]
    show (inputs.map _)[j]? = _
    rw [List.getElem?_map, List.getElem?_eq_none (by omega : inputs.length ≤ j)]
    rfl

/-- The error detail recorded for a failed Generator call (lines 1039, 1044):
the fixed message for an unsuccessful result, the thrown message otherwise. -/
def errorMessageOf : GenOutcome -> String
  | .resolved _ _ => "Falha ao gerar imagem"
  | .thrown message => message

theorem jobOutcomeUpdate_error (o : GenOutcome) (it : BatchResultItem)
    (h : genOutcomeOk o = false) :
    (jobOutcomeUpdate o it).error = some (errorMessageOf o) := by
  cases o with
  | resolved success imageUrl =>
    simp only [genOutcomeOk] at h
    simp [jobOutcomeUpdate, errorMessageOf, h]
  | thrown m => rfl

/-- C4 (Batch partial-failure isolation): with a fresh captured cancellation
flag (false) and any cancellation schedule, every launched job reaches its own
terminal status determined solely by the Generator outcome for its own index:
the final status list is done at exactly the indices where the Generator
succeeded and error at exactly the indices where it failed, in index order;
each job keeps its own caption, and a failed job records its error detail (the
failure is caught locally and does not abort the run); so with three jobs where
job 1 fails and jobs 0 and 2 succeed, the final statuses are done, error, done
in that order. -/
theorem generateBatch_failure_isolated (inputs : List BatchItemInput)
    (gen : Nat -> GenOutcome) (cancelAfter : Nat -> Bool) :
    (((generateBatchRun gen false cancelAfter inputs).2).map (fun it => it.status) =
      (List.range inputs.length).map
        (fun j => if genOutcomeOk (gen j) = true then BatchStatus.done
                  else BatchStatus.error)) ∧
    (((generateBatchRun gen false cancelAfter inputs).2).map (fun it => it.caption) =
      inputs.map (fun inp => inp.caption)) ∧
    (∀ j inp, inputs[j]? = some inp → genOutcomeOk (gen j) = false →
      ((generateBatchRun gen false cancelAfter inputs).2)[j]?.map (fun it => it.error) =
        some (some (errorMessageOf (gen j)))) := by
  refine ⟨?_, ?_, ?_⟩
  · apply List.ext_getElem?
    intro j
    rw [List.getElem?_map, List.getElem?_map, generateBatchRun_getElem?, Option.map_map]
    by_cases hj : j < inputs.length
    · rw [List.getElem?_eq_getElem hj, List.getElem?_range hj]
      show some _ = some _
      rw [Option.some_inj]
      exact jobOutcomeUpdate_status (gen j) _
    · rw [List.getElem?_eq_none (by omega),
        List.getElem?_eq_none (by rw [List.length_range]; omega)]
      rfl
  · apply List.ext_getElem?
    intro j
    rw [List.getElem?_map, List.getElem?_map, generateBatchRun_getElem?, Option.map_map]
    by_cases hj : j < inputs.length
    · rw [List.getElem?_eq_getElem hj]
      show some _ = some _
      rw [Option.some_inj]
      exact jobOutcomeUpdate_caption (gen j) _
    · rw [List.getElem?_eq_none (by omega)]
      rfl
  · intro j inp hinp hfail
    rw [generateBatchRun_getElem?, hinp, Option.map_map]
    show some _ = some _
    rw [Option.some_inj]
    show (jobOutcomeUpdate (gen j) _).error = _
    rw [jobOutcomeUpdate_error _ _ hfail]

/-- Inputs and Generator for the C4 witness: three jobs, the Generator fails
for job 1 only. -/
def c4Inputs : List BatchItemInput := [⟨0, "c0", "p0"⟩, ⟨1, "c1", "p1"⟩, ⟨2, "c2", "p2"⟩]

def c4Gen : Nat -> GenOutcome :=
  fun i => if i = 1 then .thrown "quota" else .resolved true "img"

theorem generateBatch_failure_isolated_witness :
    ((generateBatchRun c4Gen false (fun _ => false) c4Inputs).2).map (fun it => it.status) =
      [.done, .error, .done] ∧
    ((generateBatchRun c4Gen false (fun _ => false) c4Inputs).2)[1]?.map (fun it => it.error) =
      some (some "quota") :=
  ⟨(generateBatch_failure_isolated c4Inputs c4Gen (fun _ => false)).1.trans
      (by decide),
    (generateBatch_failure_isolated c4Inputs c4Gen (fun _ => false)).2.2 1
      ⟨1, "c1", "p1"⟩ (by decide) (by decide)⟩

/-- C5 (evaluation of the code): the cancellation request never reaches a
running batch loop. The loop reads only the batchCancelled value captured by
the closure at render time, so for a fresh run the final job list is identical
under every cancellation schedule; in particular, in a 2-job batch where both
generations succeed and the user cancels during the delay after job 0, job 1
still enters generating and finishes done, where the claim requires it to
remain pending. -/
theorem generateBatch_cancel_request_ignored :
    (∀ (gen : Nat -> GenOutcome) (inputs : List BatchItemInput) (c c2 : Nat -> Bool),
      (generateBatchRun gen false c inputs).2 = (generateBatchRun gen false c2 inputs).2) ∧
    ((generateBatchRun (fun _ => .resolved true "img") false (fun i => i == 0)
        [⟨0, "c0", "p0"⟩, ⟨1, "c1", "p1"⟩]).2).map (fun it => it.status) =
      [.done, .done] := by
  constructor
  · intro gen inputs c c2
    apply List.ext_getElem?
    intro j
    rw [generateBatchRun_getElem?, generateBatchRun_getElem?]
  · decide

/-- The terminal write of handleRetryItem (lines 1093-1107), gathering the
three branch writes: done with the new artifact and a cleared error detail on
success; error with "Falha ao gerar imagem" on an unsuccessful result (the
previous imageUrl is kept); error with the thrown message on an exception. -/
def retryTerminal (o : GenOutcome) : BatchResultItem -> BatchResultItem :=
  fun r =>
    match o with
    | .resolved success imageUrl =>
      if success && !(imageUrl == "") then
        { r with status := .done, imageUrl := some imageUrl, error := none }
      else { r with status := .error, error := some "Falha ao gerar imagem" }
    | .thrown message => { r with status := .error, error := some message }

/-- handleRetryItem (lines 1067-1108): the only synchronous rejection is a
missing item at the index (`if (!item) return`); for an existing item,
whatever its status, the job is marked generating, the Generator is invoked
(the returned flag says whether a call was made), and the terminal write is
applied to that job alone. -/
def handleRetryItem (results : List BatchResultItem) (index : Nat) (o : GenOutcome) :
    Bool × List BatchResultItem :=
  match results[index]? with
  | none => (false, results)
  | some _ =>
    let afterGenerating := setItem results index (fun r => { r with status := .generating })
    (true, setItem afterGenerating index (retryTerminal o))

theorem retryTerminal_status (o : GenOutcome) (r : BatchResultItem) :
    (retryTerminal o r).status =
      if genOutcomeOk o = true then BatchStatus.done else BatchStatus.error := by
  cases o with
  | resolved success imageUrl =>
    by_cases h : (success && !(imageUrl == "")) = true <;>
      simp [retryTerminal, genOutcomeOk, h]
  | thrown m => rfl

/-- Run with one done job, for the C8 counterexample. -/
def c8Run : List BatchResultItem := [⟨0, "c", "p", some "img", .done, none⟩]

/-- C8 counterexample: invoking retry on a job whose status is done (not
Error) is not rejected: handleRetryItem performs a Generator call and changes
the run. -/
theorem retry_non_error_not_rejected :
    (c8Run[0]?).map (fun it => it.status) = some .done ∧
    (handleRetryItem c8Run 0 (.resolved true "img2")).1 = true ∧
    (handleRetryItem c8Run 0 (.resolved true "img2")).2 ≠ c8Run := by
  decide

/-- C8 amended: handleRetryItem rejects synchronously, with no Generator call
and an unchanged run, exactly when no job exists at the index; for an existing
job, whatever its status, it invokes the Generator for that job and updates
that job alone (every other index is untouched), ending done on success and
error otherwise; the Error-only precondition is enforced solely by the UI,
which renders the retry button only for jobs in the error state
(lines 1944-1949). -/
theorem retry_checks_only_presence (results : List BatchResultItem) (index : Nat)
    (o : GenOutcome) :
    (results[index]? = none → handleRetryItem results index o = (false, results)) ∧
    (∀ it, results[index]? = some it →
      (handleRetryItem results index o).1 = true ∧
      (∀ j, j ≠ index → ((handleRetryItem results index o).2)[j]? = results[j]?) ∧
      ((handleRetryItem results index o).2)[index]?.map (fun r => r.status) =
        some (if genOutcomeOk o = true then BatchStatus.done else BatchStatus.error)) := by
  cases hres : results[index]? with
  | none =>
    constructor
    · intro _
      unfold handleRetryItem
      rw [hres]
    · intro it h
      exact absurd h (by simp)
  | some it0 =>
    constructor
    · intro h
      exact absurd h (by simp)
    · intro it h
      unfold handleRetryItem
      rw [hres]
      refine ⟨rfl, ?_, ?_⟩
      · intro j hj
        show (setItem (setItem results index
            (fun r => { r with status := .generating })) index (retryTerminal o))[j]? = _
        rw [setItem_getElem?, if_neg hj, setItem_getElem?, if_neg hj]
      · show ((setItem (setItem results index
            (fun r => { r with status := .generating })) index
              (retryTerminal o))[index]?).map (fun r => r.status) = _
        rw [setItem_getElem?, if_pos rfl, setItem_getElem?, if_pos rfl, hres,
          Option.map_map, Option.map_map]
        show some _ = some _
        rw [Option.some_inj]
        exact retryTerminal_status o _

/-- Run with one error job and one done job, for the C8 witness. -/
def c8ErrRun : List BatchResultItem :=
  [⟨0, "c", "p", none, .error, some "boom"⟩, ⟨1, "d", "q", some "u", .done, none⟩]

theorem retry_checks_only_presence_witness :
    c8ErrRun[0]? = some ⟨0, "c", "p", none, .error, some "boom"⟩ ∧
    (handleRetryItem c8ErrRun 0 (.resolved true "img2")).1 = true ∧
    ((handleRetryItem c8ErrRun 0 (.resolved true "img2")).2)[1]? = c8ErrRun[1]? ∧
    ((handleRetryItem c8ErrRun 0 (.resolved true "img2")).2)[0]?.map (fun r => r.status) =
      some (if genOutcomeOk (.resolved true "img2") = true then BatchStatus.done
            else BatchStatus.error) :=
  ⟨by decide,
    ((retry_checks_only_presence c8ErrRun 0 (.resolved true "img2")).2
      ⟨0, "c", "p", none, .error, some "boom"⟩ (by decide)).1,
    ((retry_checks_only_presence c8ErrRun 0 (.resolved true "img2")).2
      ⟨0, "c", "p", none, .error, some "boom"⟩ (by decide)).2.1 1 (by decide),
    ((retry_checks_only_presence c8ErrRun 0 (.resolved true "img2")).2
      ⟨0, "c", "p", none, .error, some "boom"⟩ (by decide)).2.2⟩

end GuidedWizard
